import Mathlib

/-!
Shallow embedding of the pg_mentor extension (contrib/pg_mentor).

C `double` values are modelled as `ℚ` (exact arithmetic; the spec's claims are
stated "within floating tolerance"), C `int64` as `ℤ`, counters and indices as
`ℕ`.  The shared dshash table is modelled as a list of entries keyed by
`queryid`; the shared epoch (`state->state_decisions`) as a `ℕ` threaded through
the operations.  `ereport(ERROR)` is modelled with `Except`: the error value
carries the entry/table state at the moment the error is raised, because the
shared-memory mutations performed before the `ereport` survive the abort.
-/

namespace PgMentor

/-- Ring-buffer capacity, `MENTOR_TBL_ENTRY_STAT_SIZE` in pg_mentor.c. -/
def MENTOR_TBL_ENTRY_STAT_SIZE : ℕ := 10

/-- The buffer-usage counters summed by `on_execute` (fields of PostgreSQL's
`BufferUsage` that pg_mentor reads).  They are non-negative counters. -/
structure BufferUsage where
  shared_blks_hit : ℕ
  shared_blks_read : ℕ
  local_blks_hit : ℕ
  local_blks_read : ℕ
  temp_blks_read : ℕ
deriving DecidableEq, Repr

/-- The `nblocks` sum computed at the top of `on_execute`. -/
def total_nblocks (bu : BufferUsage) : ℤ :=
  (bu.shared_blks_hit : ℤ) + bu.shared_blks_read + bu.local_blks_hit +
    bu.local_blks_read + bu.temp_blks_read

/-- `MentorTblEntry` from pg_mentor.c.  The two ring-buffer arrays are modelled
as functions `ℕ → _`; the C code only ever accesses them at index
`next_idx % MENTOR_TBL_ENTRY_STAT_SIZE`, which the model mirrors verbatim. -/
structure MentorTblEntry where
  queryid : ℕ
  refcounter : ℕ
  plan_cache_mode : ℤ
  since : ℤ
  ref_exec_time : ℚ
  fixed : Bool
  nblocks : ℕ → ℤ
  times : ℕ → ℚ
  next_idx : ℕ
  avg_nblocks : ℚ
  ref_nblocks : ℚ
  avg_exec_time : ℚ
  plan_time : ℚ

/-- `ring_buffer_size` from pg_mentor.c: the buffer holds `next_idx` valid
samples while the slot about to be written still holds the `-1` sentinel,
and `MENTOR_TBL_ENTRY_STAT_SIZE` samples once it has wrapped. -/
def ring_buffer_size (e : MentorTblEntry) : ℕ :=
  if e.nblocks (e.next_idx % MENTOR_TBL_ENTRY_STAT_SIZE) < 0 then e.next_idx
  else MENTOR_TBL_ENTRY_STAT_SIZE

/-- The per-entry statistics update of `on_execute` (pg_mentor.c lines
968-991, after the dshash lookup).  When the ring is full the `nblocks`
increment `(-evicted + nblocks) / MENTOR_TBL_ENTRY_STAT_SIZE` is an `int64`
divided by an `int` constant, i.e. C truncated integer division, modelled by
`Int.tdiv`; the `times` increment and the not-yet-full updates are `double`
arithmetic, modelled exactly in `ℚ`. -/
def on_execute (e : MentorTblEntry) (bufusage : BufferUsage) (exec_time : ℚ) :
    MentorTblEntry :=
  let nblocks : ℤ := total_nblocks bufusage
  let i : ℕ := e.next_idx % MENTOR_TBL_ENTRY_STAT_SIZE
  let e1 :=
    if ring_buffer_size e = MENTOR_TBL_ENTRY_STAT_SIZE then
      { e with
        avg_nblocks := e.avg_nblocks +
          (((-(e.nblocks i) + nblocks).tdiv (MENTOR_TBL_ENTRY_STAT_SIZE : ℤ) : ℤ) : ℚ),
        avg_exec_time := e.avg_exec_time +
          (-(e.times i) + exec_time) / (MENTOR_TBL_ENTRY_STAT_SIZE : ℚ) }
    else
      { e with
        avg_nblocks := (e.avg_nblocks * e.next_idx + (nblocks : ℚ)) / ((e.next_idx : ℚ) + 1),
        avg_exec_time := (e.avg_exec_time * e.next_idx + exec_time) / ((e.next_idx : ℚ) + 1) }
  { e1 with
    nblocks := Function.update e1.nblocks i nblocks,
    times := Function.update e1.times i exec_time,
    next_idx := e.next_idx + 1 }

/-- The statistics initialisation a fresh entry receives in `on_prepare`
(pg_mentor.c lines 831-843): empty ring (every slot `-1`), zero averages,
sentinel reference values.  Identity fields (`queryid`, `refcounter`,
`plan_cache_mode`, `since`) are taken from the argument. -/
def init_entry_stats (e : MentorTblEntry) : MentorTblEntry :=
  { e with
    ref_exec_time := -1,
    next_idx := 0,
    ref_nblocks := -1,
    avg_nblocks := 0,
    avg_exec_time := 0,
    nblocks := fun _ => -1,
    times := fun _ => -1 }

/-- Fold `on_execute` over a list of (buffer usage, execution time) samples. -/
def recordList (e : MentorTblEntry) (xs : List (BufferUsage × ℚ)) : MentorTblEntry :=
  xs.foldl (fun a p => on_execute a p.1 p.2) e

/-- The `mean = sum / N` computed inside `calculateStandardDeviation`. -/
def dataMean (N : ℕ) (data : ℕ → ℤ) : ℚ :=
  (((List.range N).map fun i => ((data i : ℚ))).sum) / (N : ℚ)

/-- The `values / N` argument of the final `sqrt` in
`calculateStandardDeviation`: the population variance of `data[0..N-1]`. -/
def dataVariance (N : ℕ) (data : ℕ → ℤ) : ℚ :=
  (((List.range N).map fun i => ((data i : ℚ) - dataMean N data) ^ 2).sum) / (N : ℚ)

/-- `calculateStandardDeviation` from pg_mentor.c: the square root of the
population variance of the first `N` ring-buffer slots. -/
noncomputable def calculateStandardDeviation (N : ℕ) (data : ℕ → ℤ) : ℝ :=
  Real.sqrt ((dataVariance N data : ℚ) : ℝ)

/-- `pg_mentor_set_plan_mode_int` from pg_mentor.c.  The mode and the `fixed`
flag are assigned before the never-executed check, so when
`ereport(ERROR)` fires those two mutations have already been applied to the
shared entry; the error value carries that mutated entry.  On success the
reference fields are filled (falling back to the current averages) and
`move_mentor_status` bumps the shared epoch, which callers of this model
account for by adding 1 to the epoch on the `.ok` path. -/
def pg_mentor_set_plan_mode_int (entry : MentorTblEntry) (status : ℤ)
    (ref_exec_time ref_nblocks : ℚ) (fixed : Bool) :
    Except MentorTblEntry MentorTblEntry :=
  let e1 := { entry with plan_cache_mode := status, fixed := fixed }
  if e1.nblocks 0 < 0 ∧ (ref_nblocks < 0 ∨ ref_exec_time < 0) then
    .error e1
  else
    .ok { e1 with
          ref_nblocks := if 0 < ref_nblocks then ref_nblocks else e1.avg_nblocks,
          ref_exec_time := if 0 < ref_exec_time then ref_exec_time else e1.avg_exec_time }

/-- The shared state: the dshash table of entries plus the shared epoch
(`state->state_decisions`). -/
structure PgmState where
  entries : List MentorTblEntry
  epoch : ℕ

/-- Replace the (unique) entry keyed by `qid`. -/
def replaceEntry : List MentorTblEntry → ℕ → MentorTblEntry → List MentorTblEntry
  | [], _, _ => []
  | e :: rest, qid, e' =>
      if e.queryid = qid then e' :: rest else e :: replaceEntry rest qid e'

/-- The SQL-facing `pg_mentor_set_plan_mode` of pg_mentor.c (the revision with
reference costs): `dshash_find_or_insert` followed by
`pg_mentor_set_plan_mode_int`.  A miss inserts a fresh slot whose non-key
fields are uninitialised shared memory, modelled by the `junk` parameter.
On success the epoch is bumped once (by `move_mentor_status` inside the int
helper); on the error path the epoch is untouched but the entry mutated so
far stays in the table. -/
def pg_mentor_set_plan_mode (st : PgmState) (qid : ℕ) (status : ℤ)
    (ref_exec_time ref_nblocks : ℚ) (fixed : Bool) (junk : MentorTblEntry) :
    Except PgmState (PgmState × Bool) :=
  match st.entries.find? (fun e => e.queryid = qid) with
  | some e =>
      match pg_mentor_set_plan_mode_int e status ref_exec_time ref_nblocks fixed with
      | .error e' => .error ⟨replaceEntry st.entries qid e', st.epoch⟩
      | .ok e' => .ok (⟨replaceEntry st.entries qid e', st.epoch + 1⟩, true)
  | none =>
      match pg_mentor_set_plan_mode_int { junk with queryid := qid }
          status ref_exec_time ref_nblocks fixed with
      | .error e' => .error ⟨st.entries ++ [e'], st.epoch⟩
      | .ok e' => .ok (⟨st.entries ++ [e'], st.epoch + 1⟩, true)

/-- The per-entry reinitialisation performed by `pg_mentor_reset`. -/
def reset_entry (e : MentorTblEntry) : MentorTblEntry :=
  { e with
    plan_cache_mode := 0,
    fixed := false,
    since := 0,
    next_idx := 0,
    ref_exec_time := -1,
    ref_nblocks := -1,
    avg_exec_time := 0,
    avg_nblocks := 0,
    nblocks := fun _ => -1,
    times := fun _ => -1 }

/-- `pg_mentor_reset` from pg_mentor.c: reinitialises every entry and returns
the counter, which is incremented unconditionally for each entry visited.
It does not call `move_mentor_status`, so the epoch is unchanged. -/
def pg_mentor_reset (st : PgmState) : PgmState × ℤ :=
  (⟨st.entries.map reset_entry, st.epoch⟩, (st.entries.length : ℤ))

/-- One entry of `reconsider_ps_modes`' scan.  The result tags the entry with
`some true` when the to-generic counter is incremented, `some false` for the
to-custom counter, and `none` when the entry is skipped.  The standard
deviation comparisons `stddev / avg ≤ c` and `stddev / avg > c` of the C
code are encoded by the equivalent variance comparisons
`dataVariance ≤ c^2 * avg^2` and `c^2 * avg^2 < dataVariance`; the branch is
only reached when `0 < avg_nblocks`, and the equivalence with the
`calculateStandardDeviation` form is proven in `stddev_div_le_iff` and
`stddev_div_gt_iff` below. -/
def reconsiderEntry (e : MentorTblEntry) : Except MentorTblEntry (MentorTblEntry × Option Bool) :=
  let statnum := ring_buffer_size e
  if e.plan_cache_mode < 0 then .ok (e, none)
  else if e.avg_nblocks ≤ 0 ∨ statnum ≤ 1 then .ok (e, none)
  else if e.plan_cache_mode = 0 ∧ e.fixed = false ∧ e.ref_exec_time < 0
      ∧ e.avg_exec_time < e.plan_time
      ∧ dataVariance statnum e.nblocks ≤ (3/10) ^ 2 * e.avg_nblocks ^ 2 then
    (pg_mentor_set_plan_mode_int e 1 (-1) (-1) false).map (fun e' => (e', some true))
  else if e.plan_cache_mode = 1 ∧ e.fixed = false ∧ 0 < e.ref_exec_time
      ∧ e.avg_exec_time < e.plan_time * 2
      ∧ 1 < e.avg_nblocks / e.ref_nblocks then
    (pg_mentor_set_plan_mode_int e 2 (-1) (-1) false).map (fun e' => (e', some false))
  else if e.plan_cache_mode = 0 ∧ e.fixed = false ∧ e.ref_exec_time ≤ 0
      ∧ e.plan_time * 1 < e.avg_exec_time
      ∧ (1/2) ^ 2 * e.avg_nblocks ^ 2 < dataVariance statnum e.nblocks then
    (pg_mentor_set_plan_mode_int e 2 (-1) (-1) false).map (fun e' => (e', some false))
  else if e.plan_cache_mode = 2 ∧ e.fixed = false ∧ 0 < e.ref_exec_time
      ∧ (e.avg_exec_time < e.plan_time * 2 ∨ e.ref_nblocks / e.avg_nblocks < 2)
      ∧ dataVariance statnum e.nblocks ≤ (3/10) ^ 2 * e.avg_nblocks ^ 2 then
    (pg_mentor_set_plan_mode_int e 1 (-1) (-1) false).map (fun e' => (e', some true))
  else .ok (e, none)

/-- The scan loop of `reconsider_ps_modes`, threading the epoch, the two
transition counters and `nvalues` (which is incremented for every entry
before any skip test).  An `ereport(ERROR)` inside
`pg_mentor_set_plan_mode_int` aborts the whole pass. -/
def reconsiderLoop (ep tg tc nv : ℕ) :
    List MentorTblEntry → Except Unit (List MentorTblEntry × ℕ × ℕ × ℕ × ℕ)
  | [] => .ok ([], ep, tg, tc, nv)
  | e :: rest =>
      match reconsiderEntry e with
      | .error _ => .error ()
      | .ok (e', none) =>
          (reconsiderLoop ep tg tc (nv + 1) rest).map (fun r => (e' :: r.1, r.2))
      | .ok (e', some true) =>
          (reconsiderLoop (ep + 1) (tg + 1) tc (nv + 1) rest).map
            (fun r => (e' :: r.1, r.2))
      | .ok (e', some false) =>
          (reconsiderLoop (ep + 1) tg (tc + 1) (nv + 1) rest).map
            (fun r => (e' :: r.1, r.2))

/-- `reconsider_ps_modes` from pg_mentor.c: one pass over the whole table,
returning the updated state and the `(to_generic, to_custom, unchanged)`
triple, with `unchanged = nvalues - to_generic - to_custom`. -/
def reconsider_ps_modes (st : PgmState) : Except Unit (PgmState × ℤ × ℤ × ℤ) :=
  match reconsiderLoop st.epoch 0 0 0 st.entries with
  | .error _ => .error ()
  | .ok (l', ep', tg, tc, nv) =>
      .ok (⟨l', ep'⟩, (tg : ℤ), (tc : ℤ), (nv : ℤ) - tg - tc)

/-- `LocaLPSEntry`: the per-backend registry record. -/
structure LocaLPSEntry where
  queryId : ℕ
  refcounter : ℤ
  plan_time : ℚ
deriving DecidableEq, Repr

/-- Replace the (unique) local-registry record keyed by `qid`. -/
def replaceLocal : List LocaLPSEntry → ℕ → LocaLPSEntry → List LocaLPSEntry
  | [], _, _ => []
  | x :: rest, qid, x' =>
      if x.queryId = qid then x' :: rest else x :: replaceLocal rest qid x'

/-- Decrement the shared `uint32` refcounter of the entry keyed by `qid` by
`k`, if present (`dshash_find` miss leaves the table unchanged).  The
subtraction wraps modulo `2 ^ 32` exactly as C unsigned arithmetic does
(`Int.emod` with a positive divisor yields the representative in
`[0, 2 ^ 32)`). -/
def decSharedRef (shared : List MentorTblEntry) (qid : ℕ) (k : ℕ) : List MentorTblEntry :=
  match shared.find? (fun s => s.queryid = qid) with
  | some s =>
      replaceEntry shared qid
        { s with refcounter := ((((s.refcounter : ℤ) - k).emod (2 ^ 32))).toNat }
  | none => shared

/-- `on_deallocate` from pg_mentor.c.  For `queryId ≠ 0` the C code runs
`le->refcounter--` on the pointer returned by the local-hash lookup before
testing `found`; when the fingerprint is not registered locally that
pointer is NULL and the worker crashes, modelled by `.error ()`.  For
`queryId = 0` (backend shutdown) every locally registered statement has its
shared refcounter decremented by the local count and the local registry is
emptied. -/
def on_deallocate (locals : List LocaLPSEntry) (shared : List MentorTblEntry)
    (qid : ℕ) : Except Unit (List LocaLPSEntry × List MentorTblEntry) :=
  if qid ≠ 0 then
    match locals.find? (fun x => x.queryId = qid) with
    | none => .error ()
    | some le =>
        let le' := { le with refcounter := le.refcounter - 1 }
        let locals' :=
          if le'.refcounter = 0 then locals.filter (fun x => x.queryId != qid)
          else replaceLocal locals qid le'
        .ok (locals', decSharedRef shared qid 1)
  else
    .ok ([], locals.foldl (fun sh le => decSharedRef sh le.queryId le.refcounter.toNat) shared)

/-- Project the success case of a `reconsiderEntry` result to its
decision-relevant fields (mode, fixed flag, reference execution time) and
the tally tag. -/
def okTag (r : Except MentorTblEntry (MentorTblEntry × Option Bool)) :
    Option (ℤ × Bool × ℚ × Option Bool) :=
  match r with
  | .ok (e, t) => some (e.plan_cache_mode, e.fixed, e.ref_exec_time, t)
  | .error _ => none

/-- Project the error case of a `pg_mentor_set_plan_mode` result. -/
def errStateOf (r : Except PgmState (PgmState × Bool)) : Option PgmState :=
  match r with
  | .error s => some s
  | .ok _ => none

/-- A live prepared-statement handle as `check_state` sees it.  The
`cursor_options` bit manipulation of `set_plan_cache_mode` is abstracted to
storing the three-valued mode directly. -/
structure Handle where
  queryId : ℕ
  mode : ℤ
deriving DecidableEq, Repr

/-- The double loop of `check_state`: for every table entry, push its mode
into every live handle with the same queryId. -/
def sync_handles (entries : List MentorTblEntry) (hs : List Handle) : List Handle :=
  entries.foldl
    (fun acc e =>
      acc.map (fun h => if h.queryId = e.queryid then { h with mode := e.plan_cache_mode } else h))
    hs

/-- `check_state` from pg_mentor.c.  Inputs: the shared epoch it observes, the
worker's cached `local_state_generation`, the shared table and the list of
live prepared statements the engine reports.  Output: the updated handles,
the updated local generation, and whether the call performed re-sync work
(reached `fetch_prepared_statements`).  Note the early return when the
handle list is empty: the local generation is not advanced there. -/
def check_state (sharedEpoch localGen : ℕ) (entries : List MentorTblEntry)
    (hs : List Handle) : List Handle × ℕ × Bool :=
  if sharedEpoch = localGen then (hs, localGen, false)
  else if hs.length = 0 then (hs, localGen, true)
  else (sync_handles entries hs,
        if localGen < sharedEpoch then sharedEpoch else localGen,
        true)

/-- A baseline entry whose statistics fields are exactly those of a freshly
prepared, never-executed statement. -/
def entry0 : MentorTblEntry where
  queryid := 0
  refcounter := 0
  plan_cache_mode := 0
  since := 0
  ref_exec_time := -1
  fixed := false
  nblocks := fun _ => -1
  times := fun _ => -1
  next_idx := 0
  avg_nblocks := 0
  ref_nblocks := -1
  avg_exec_time := 0
  plan_time := 0

/-- A buffer-usage sample totalling one block. -/
def buOne : BufferUsage := ⟨1, 0, 0, 0, 0⟩

/-- A buffer-usage sample totalling zero blocks. -/
def buZero : BufferUsage := ⟨0, 0, 0, 0, 0⟩

/-- Eleven samples: one block hit, then ten idle executions. -/
def c1cex : List (BufferUsage × ℚ) := (buOne, 0) :: List.replicate 10 (buZero, 0)

/-- A ring-buffer content with two recorded samples of value `v`. -/
def twoSlots (v : ℤ) : ℕ → ℤ := fun j => if j < 2 then v else -1

/-- A FORCE_GENERIC entry with a reference cost whose average cost has
regressed: reference execution time 5.0, current average 12.0, plan time
10.0, block average grown to twice its reference. -/
def c2e : MentorTblEntry :=
  { entry0 with
    plan_cache_mode := 1
    ref_exec_time := 5
    avg_exec_time := 12
    plan_time := 10
    avg_nblocks := 4
    ref_nblocks := 2
    next_idx := 2
    nblocks := twoSlots 4
    times := fun j => if j < 2 then 12 else -1 }

/-- An AUTO entry with stable statistics and planning-dominated cost:
average execution time 5.0, plan time 8.0, no reference cost, two equal
block samples (zero variance). -/
def c3e : MentorTblEntry :=
  { entry0 with
    avg_exec_time := 5
    plan_time := 8
    avg_nblocks := 7
    next_idx := 2
    nblocks := twoSlots 7
    times := fun j => if j < 2 then 5 else -1 }

/-- A table with a single entry already in AUTO mode. -/
def c4st : PgmState := ⟨[entry0], 5⟩

/-- A never-executed entry registered under fingerprint 42. -/
def c6e : MentorTblEntry := { entry0 with queryid := 42 }

/-- A table containing only the never-executed entry 42, at epoch 5. -/
def c6st : PgmState := ⟨[c6e], 5⟩

/-- Uninitialised-slot stand-in whose ring is non-empty, so that a manual
mode change on it succeeds. -/
def c9junk : MentorTblEntry :=
  { entry0 with nblocks := fun _ => 5, avg_nblocks := 5, avg_exec_time := 5 }

/-- The entry produced by a successful manual override on `c9junk`. -/
def c9res : MentorTblEntry :=
  { c9junk with
    queryid := 7
    plan_cache_mode := 1
    fixed := true
    ref_nblocks := 5
    ref_exec_time := 5 }

/-- A table with one non-AUTO entry, at epoch 5. -/
def c9st : PgmState := ⟨[{ entry0 with plan_cache_mode := 1 }], 5⟩

/-- A single-entry table whose entry is skipped by a reconsideration pass. -/
def c9passSt : PgmState := ⟨[entry0], 3⟩

/-- A single-entry table whose entry is skipped by a reconsideration pass. -/
def c10st : PgmState := ⟨[entry0], 3⟩

end PgMentor

namespace PgMentorV0

/-- `MentorTblEntry` of the early revision in src/pg_mentor.c. -/
structure MentorTblEntry where
  queryid : ℕ
  plan_cache_mode : ℤ
  since : ℤ
deriving DecidableEq, Repr

/-- Shared state of the early revision: fixed shared hash table plus the
`state_generation` counter; the LWLock guarding the table is modelled by
whether `LWLockConditionalAcquire` succeeds. -/
structure State where
  entries : List MentorTblEntry
  epoch : ℕ
deriving DecidableEq, Repr

/-- `pg_mentor_set_plan_mode` of src/pg_mentor.c.  `acquired` is the result of
`LWLockConditionalAcquire(state->lock, LW_EXCLUSIVE)`: it is `false` when
another backend currently holds a conflicting lock, and in that case the
function returns `false` immediately, touching neither the table nor the
generation counter.  Otherwise `hash_search(HASH_ENTER)` finds or creates
the entry (a created entry's non-key fields are the uninitialised `junk`),
the mode is stored, and `move_mentor_status` bumps the generation. -/
def pg_mentor_set_plan_mode (acquired : Bool) (st : State) (qid : ℕ) (status : ℤ)
    (junk : MentorTblEntry) : Bool × State :=
  if acquired = false then (false, st)
  else
    let entries' :=
      if st.entries.any (fun e => e.queryid == qid) then
        st.entries.map (fun e => if e.queryid = qid then { e with plan_cache_mode := status } else e)
      else
        st.entries ++ [{ junk with queryid := qid, plan_cache_mode := status }]
    (true, ⟨entries', st.epoch + 1⟩)

/-- A one-entry table of the early revision, at generation 4. -/
def c8st : State := ⟨[⟨7, 1, 0⟩], 4⟩

/-- Uninitialised-slot stand-in for the early revision. -/
def c8junk : MentorTblEntry := ⟨0, 0, 0⟩

end PgMentorV0

namespace PgMentor

/-- Sums of non-negative block counters are non-negative. -/
lemma total_nblocks_nonneg (bu : BufferUsage) : 0 ≤ total_nblocks bu := by
  unfold total_nblocks
  positivity

/-- The population variance computed inside `calculateStandardDeviation` is
non-negative. -/
lemma dataVariance_nonneg (N : ℕ) (data : ℕ → ℤ) : 0 ≤ dataVariance N data := by
  unfold dataVariance
  refine div_nonneg (List.sum_nonneg ?_) (by positivity)
  intro q hq
  simp only [List.mem_map] at hq
  obtain ⟨i, -, rfl⟩ := hq
  positivity

/-- The C comparison `stddev / avg ≤ c` (with `stddev` the square root of the
variance, and `0 < avg`, `0 ≤ c`) is equivalent to the executable variance
comparison used in `reconsiderEntry`. -/
lemma stddev_div_le_iff (N : ℕ) (data : ℕ → ℤ) (a c : ℚ) (ha : 0 < a) (hc : 0 ≤ c) :
    calculateStandardDeviation N data / (a : ℝ) ≤ (c : ℝ) ↔
      dataVariance N data ≤ c ^ 2 * a ^ 2 := by
  have ha' : (0 : ℝ) < (a : ℝ) := by exact_mod_cast ha
  have hca : (0 : ℝ) ≤ (c : ℝ) * a := by positivity
  rw [div_le_iff₀ ha', calculateStandardDeviation, Real.sqrt_le_left hca,
    show ((c : ℝ) * a) ^ 2 = (((c ^ 2 * a ^ 2 : ℚ)) : ℝ) by push_cast; ring]
  exact_mod_cast Iff.rfl

/-- The C comparison `stddev / avg > c` similarly matches the executable
variance comparison. -/
lemma stddev_div_gt_iff (N : ℕ) (data : ℕ → ℤ) (a c : ℚ) (ha : 0 < a) (hc : 0 ≤ c) :
    (c : ℝ) < calculateStandardDeviation N data / (a : ℝ) ↔
      c ^ 2 * a ^ 2 < dataVariance N data := by
  rw [lt_iff_not_le, lt_iff_not_le, stddev_div_le_iff N data a c ha hc]

/-- `List.getD` past the end returns the default. -/
lemma getD_length_le {α : Type} (l : List α) (d : α) (j : ℕ) (h : l.length ≤ j) :
    l.getD j d = d := by
  induction l generalizing j with
  | nil => simp
  | cons a t ih =>
      cases j with
      | zero => simp at h
      | succ k => simpa using ih k (by simpa using h)

/-- `List.getD` inside the first part of an append. -/
lemma getD_append_lt {α : Type} (l l' : List α) (d : α) (j : ℕ) (h : j < l.length) :
    (l ++ l').getD j d = l.getD j d := by
  induction l generalizing j with
  | nil => simp at h
  | cons a t ih =>
      cases j with
      | zero => simp
      | succ k => simpa using ih k (by simpa using h)

/-- `List.getD` at the position of a freshly appended element. -/
lemma getD_append_self {α : Type} (l : List α) (y : α) (d : α) :
    (l ++ [y]).getD l.length d = y := by
  induction l with
  | nil => simp
  | cons a t ih => simp [ih]

/-- Claim C4 (counterexample): `pg_mentor_reset` on a table whose only entry
is already in AUTO mode returns 1, not the number of entries whose mode was
changed away from AUTO (which is 0 here): the counter is incremented for
every entry visited, changed or not. -/
theorem c4_counterexample :
    (pg_mentor_reset c4st).2 ≠
      ((c4st.entries.filter (fun e => decide (e.plan_cache_mode ≠ 0))).length : ℤ) := by
  decide

/-- Claim C4 (amended): `pg_mentor_reset` returns the total number of entries
in the table (counting every entry, whether or not its mode changed), does
not touch the shared epoch, and leaves every entry in AUTO mode, unpinned,
with an empty ring buffer and sentinel (negative) reference fields. -/
theorem c4_reset_clears_all (st : PgmState) :
    (pg_mentor_reset st).2 = (st.entries.length : ℤ)
  ∧ (pg_mentor_reset st).1.epoch = st.epoch
  ∧ ∀ e' ∈ (pg_mentor_reset st).1.entries,
      e'.plan_cache_mode = 0 ∧ e'.fixed = false ∧ ring_buffer_size e' = 0
      ∧ e'.ref_exec_time < 0 ∧ e'.ref_nblocks < 0 := by
  refine ⟨rfl, rfl, ?_⟩
  intro e' he'
  simp only [pg_mentor_reset, List.mem_map] at he'
  obtain ⟨a, -, rfl⟩ := he'
  refine ⟨rfl, rfl, ?_, by norm_num [reset_entry], by norm_num [reset_entry]⟩
  norm_num [ring_buffer_size, reset_entry]

/-- Claim C5 (counterexample): with shared epoch 2, local generation 1 and an
empty list of live prepared statements, `check_state` performs the fetch
but does not advance the local generation to the observed epoch, so the
immediately following call performs the fetch again instead of being a
no-op. -/
theorem c5_counterexample :
    check_state 2 1 [] [] = ([], 1, true)
  ∧ (check_state 2 (check_state 2 1 [] []).2.1 [] []).2.2 = true
  ∧ (1 : ℕ) ≠ 2 := by
  refine ⟨by decide, by decide, by decide⟩

/-- Claim C5 (amended): if `check_state` observes shared epoch `E` at least as
new as the local generation and the list of live prepared statements is
non-empty, the local generation is advanced to `E` and a following call
that still observes `E` performs no re-sync work; but when the list of
live statements is empty, the local generation is left unchanged (the
early return skips the advancement), so the next stale call repeats the
fetch. -/
theorem c5_sync_idempotent (E lg : ℕ) (entries entries2 entries3 : List MentorTblEntry)
    (hs hs2 : List Handle) (hle : lg ≤ E) (hne : hs ≠ []) :
    (check_state E lg entries hs).2.1 = E
  ∧ (check_state E E entries2 hs2).2.2 = false
  ∧ (check_state E lg entries3 []).2.1 = lg := by
  refine ⟨?_, by simp [check_state], ?_⟩
  · by_cases h : E = lg
    · simp [check_state, h]
    · have hlt : lg < E := lt_of_le_of_ne hle (fun hh => h hh.symm)
      have hhs : hs.length ≠ 0 := by simpa [List.length_eq_zero] using hne
      simp [check_state, h, hhs, hlt]
  · by_cases h : E = lg <;> simp [check_state, h]

/-- Witness for C5 at shared epoch 2, local generation 1, one live handle. -/
theorem c5_sync_idempotent_witness :
    ((1 : ℕ) ≤ 2 ∧ ([⟨7, 0⟩] : List Handle) ≠ [])
  ∧ ((check_state 2 1 [] [⟨7, 0⟩]).2.1 = 2
     ∧ (check_state 2 2 [] []).2.2 = false
     ∧ (check_state 2 1 [] []).2.1 = 1) :=
  ⟨⟨by decide, by decide⟩,
    c5_sync_idempotent 2 1 [] [] [] [⟨7, 0⟩] [] (by decide) (by decide)⟩

/-- Claim C7: disposing a fingerprint that is not registered in the worker's
local registry crashes the worker: `on_deallocate` dereferences the
pointer returned by the local-hash lookup before testing `found`, and that
pointer is NULL on a miss.  The `.error ()` result is the model of that
null dereference. -/
theorem c7_dispose_unregistered_crashes (locals : List LocaLPSEntry)
    (shared : List MentorTblEntry) (qid : ℕ) (h0 : qid ≠ 0)
    (hmiss : locals.find? (fun x => x.queryId = qid) = none) :
    on_deallocate locals shared qid = .error () := by
  simp [on_deallocate, h0, hmiss]

/-- Witness for C7: fingerprint 7 with a local registry holding only
fingerprint 3. -/
theorem c7_dispose_unregistered_crashes_witness :
    ((7 : ℕ) ≠ 0 ∧ ([⟨3, 1, -1⟩] : List LocaLPSEntry).find? (fun x => x.queryId = 7) = none)
  ∧ on_deallocate [⟨3, 1, -1⟩] [] 7 = .error () :=
  ⟨⟨by decide, by decide⟩,
    c7_dispose_unregistered_crashes [⟨3, 1, -1⟩] [] 7 (by decide) (by decide)⟩

end PgMentor

namespace PgMentorV0

/-- Claim C8: when `LWLockConditionalAcquire` fails because another backend
holds the lock, the manual `pg_mentor_set_plan_mode` of src/pg_mentor.c
returns `false` immediately and changes neither the shared table nor the
generation counter. -/
theorem c8_set_mode_fails_fast (acquired : Bool) (st : State) (qid : ℕ)
    (status : ℤ) (junk : MentorTblEntry) (h : acquired = false) :
    pg_mentor_set_plan_mode acquired st qid status junk = (false, st) := by
  simp [pg_mentor_set_plan_mode, h]

/-- Witness for C8 on a concrete one-entry table. -/
theorem c8_set_mode_fails_fast_witness :
    (false = false)
  ∧ pg_mentor_set_plan_mode false c8st 7 2 c8junk = (false, c8st) :=
  ⟨rfl, c8_set_mode_fails_fast false c8st 7 2 c8junk rfl⟩

end PgMentorV0

namespace PgMentor

/-- A successful `Except.map` comes from a successful computation. -/
lemma except_map_eq_ok {ε α β : Type} (f : α → β) (x : Except ε α) (b : β)
    (h : x.map f = .ok b) : ∃ a, x = .ok a ∧ f a = b := by
  cases x with
  | error e => simp [Except.map] at h
  | ok a => exact ⟨a, rfl, by simpa [Except.map] using h⟩

/-- Bookkeeping facts about the `reconsider_ps_modes` scan loop: on success,
`nvalues` grows by exactly the number of entries scanned, the epoch grows
by exactly the number of transitions taken (one per `to_generic` or
`to_custom` increment), and the two counters never exceed the number of
entries scanned. -/
lemma reconsiderLoop_spec (l : List MentorTblEntry) :
    ∀ ep tg tc nv l2 ep2 tg2 tc2 nv2,
      reconsiderLoop ep tg tc nv l = .ok (l2, ep2, tg2, tc2, nv2) →
      nv2 = nv + l.length ∧ ep2 + tg + tc = ep + tg2 + tc2
      ∧ tg ≤ tg2 ∧ tc ≤ tc2 ∧ tg2 + tc2 ≤ tg + tc + l.length := by
  induction l with
  | nil =>
      intro ep tg tc nv l2 ep2 tg2 tc2 nv2 h
      simp only [reconsiderLoop, Except.ok.injEq, Prod.mk.injEq] at h
      obtain ⟨-, h1, h2, h3, h4⟩ := h
      simp only [List.length_nil]
      omega
  | cons e rest ih =>
      intro ep tg tc nv l2 ep2 tg2 tc2 nv2 h
      simp only [reconsiderLoop] at h
      split at h
      · simp at h
      all_goals
        obtain ⟨r, hrec, hfr⟩ := except_map_eq_ok _ _ _ h
      all_goals
        obtain ⟨rl, rep, rtg, rtc, rnv⟩ := r
      all_goals
        simp only [Prod.mk.injEq] at hfr
      all_goals
        obtain ⟨-, h1, h2, h3, h4⟩ := hfr
      all_goals
        obtain ⟨g1, g2, g3, g4, g5⟩ := ih _ _ _ _ _ _ _ _ _ hrec
      all_goals
        simp only [List.length_cons]
      all_goals
        omega

/-- Claim C10: whenever a reconsideration pass completes, the returned triple
satisfies `to_generic + to_custom + unchanged = number of table entries`,
with all three components non-negative: every entry is counted exactly
once (in `nvalues`, incremented before any skip test), and every skipped
entry ends up in `unchanged = nvalues - to_generic - to_custom`. -/
theorem c10_tally_partition (st st' : PgmState) (tg tc unch : ℤ)
    (h : reconsider_ps_modes st = .ok (st', tg, tc, unch)) :
    tg + tc + unch = (st.entries.length : ℤ) ∧ 0 ≤ tg ∧ 0 ≤ tc ∧ 0 ≤ unch := by
  unfold reconsider_ps_modes at h
  cases hloop : reconsiderLoop st.epoch 0 0 0 st.entries with
  | error u => rw [hloop] at h; simp at h
  | ok r =>
      obtain ⟨l2, ep2, tg2, tc2, nv2⟩ := r
      rw [hloop] at h
      simp only [Except.ok.injEq, Prod.mk.injEq] at h
      obtain ⟨-, htg, htc, hunch⟩ := h
      obtain ⟨hnv, hep, h1, h2, h3⟩ :=
        reconsiderLoop_spec st.entries st.epoch 0 0 0 l2 ep2 tg2 tc2 nv2 hloop
      subst htg htc hunch
      refine ⟨?_, ?_, ?_, ?_⟩ <;> omega

/-- Witness for C10: a singleton table whose entry is skipped; the pass
reports (0, 0, 1). -/
theorem c10_tally_partition_witness :
    reconsider_ps_modes c10st = .ok (c10st, 0, 0, 1)
  ∧ ((0 : ℤ) + 0 + 1 = (c10st.entries.length : ℤ) ∧ (0 : ℤ) ≤ 0 ∧ (0 : ℤ) ≤ 0
     ∧ (0 : ℤ) ≤ 1) := by
  have h : reconsider_ps_modes c10st = .ok (c10st, 0, 0, 1) := rfl
  exact ⟨h, c10_tally_partition c10st c10st 0 0 1 h⟩

/-- Claim C9 (counterexample): `pg_mentor_reset` changes the only entry's
mode away from FORCE_GENERIC back to AUTO - an externally visible decision
change - yet the shared epoch is not incremented. -/
theorem c9_counterexample :
    c9st.entries.map (fun e => e.plan_cache_mode) = [1]
  ∧ (pg_mentor_reset c9st).1.entries.map (fun e => e.plan_cache_mode) = [0]
  ∧ (pg_mentor_reset c9st).1.epoch ≠ c9st.epoch + 1 := by
  refine ⟨by decide, by decide, by decide⟩

/-- Claim C9 (amended): each successful manual override increments the shared
epoch exactly once (whether or not it changed anything); a reconsideration
pass increments it exactly once per heuristic switch taken (to-generic or
to-custom), hence not at all when it takes no transition; and `reset()`
never increments the epoch. -/
theorem c9_epoch_discipline :
    (∀ (st : PgmState) (qid : ℕ) (status : ℤ) (ret rnb : ℚ) (fixed : Bool)
        (junk : MentorTblEntry) (st' : PgmState) (r : Bool),
        pg_mentor_set_plan_mode st qid status ret rnb fixed junk = .ok (st', r) →
        st'.epoch = st.epoch + 1)
  ∧ (∀ (st st' : PgmState) (tg tc unch : ℤ),
        reconsider_ps_modes st = .ok (st', tg, tc, unch) →
        (st'.epoch : ℤ) = (st.epoch : ℤ) + tg + tc)
  ∧ (∀ st : PgmState, (pg_mentor_reset st).1.epoch = st.epoch) := by
  refine ⟨?_, ?_, fun st => rfl⟩
  · intro st qid status ret rnb fixed junk st' r h
    unfold pg_mentor_set_plan_mode at h
    split at h <;> split at h <;> simp at h <;> rw [← h.1]
  · intro st st' tg tc unch h
    unfold reconsider_ps_modes at h
    cases hloop : reconsiderLoop st.epoch 0 0 0 st.entries with
    | error u => rw [hloop] at h; simp at h
    | ok r =>
        obtain ⟨l2, ep2, tg2, tc2, nv2⟩ := r
        rw [hloop] at h
        simp only [Except.ok.injEq, Prod.mk.injEq] at h
        obtain ⟨hst, htg, htc, -⟩ := h
        obtain ⟨-, hep, h1, h2, -⟩ :=
          reconsiderLoop_spec st.entries st.epoch 0 0 0 l2 ep2 tg2 tc2 nv2 hloop
        subst htg htc
        rw [← hst]
        push_cast
        omega

/-- Witness for C9: a successful manual override on an empty table bumps the
epoch from 5 to 6; a pass that takes no transition leaves epoch 3; a reset
leaves epoch 2. -/
theorem c9_epoch_discipline_witness :
    (pg_mentor_set_plan_mode ⟨[], 5⟩ 7 1 5 5 true c9junk = .ok (⟨[c9res], 6⟩, true)
      ∧ (⟨[c9res], 6⟩ : PgmState).epoch = (⟨[], 5⟩ : PgmState).epoch + 1)
  ∧ (reconsider_ps_modes c9passSt = .ok (c9passSt, 0, 0, 1)
      ∧ ((c9passSt.epoch : ℤ) = ((c9passSt.epoch : ℤ)) + 0 + 0))
  ∧ (pg_mentor_reset ⟨[], 2⟩).1.epoch = (⟨[], 2⟩ : PgmState).epoch := by
  have hset : pg_mentor_set_plan_mode ⟨[], 5⟩ 7 1 5 5 true c9junk
      = .ok (⟨[c9res], 6⟩, true) := rfl
  have hrec : reconsider_ps_modes c9passSt = .ok (c9passSt, 0, 0, 1) := rfl
  exact ⟨⟨hset, c9_epoch_discipline.1 ⟨[], 5⟩ 7 1 5 5 true c9junk ⟨[c9res], 6⟩ true hset⟩,
    ⟨hrec, c9_epoch_discipline.2.1 c9passSt c9passSt 0 0 1 hrec⟩,
    c9_epoch_discipline.2.2 ⟨[], 2⟩⟩

/-- The step-1 branch of `reconsider_ps_modes` (AUTO to FORCE_GENERIC): when
the entry is live (positive average, more than one sample), in AUTO mode,
not fixed, without reference cost, with planning-dominated cost and low
variance, the pass sets mode 1 and records the current averages as the new
reference values.  The `0 ≤ e.nblocks 0` hypothesis is the reachable-state
fact that a ring with at least one recorded sample has slot 0 filled; it
rules out the never-executed `ereport` path. -/
lemma reconsiderEntry_step1 (e : MentorTblEntry)
    (hmode : e.plan_cache_mode = 0) (hfx : e.fixed = false)
    (href : e.ref_exec_time < 0) (hexec : e.avg_exec_time < e.plan_time)
    (hcv : dataVariance (ring_buffer_size e) e.nblocks ≤ (3/10) ^ 2 * e.avg_nblocks ^ 2)
    (havg : 0 < e.avg_nblocks) (hstat : 1 < ring_buffer_size e)
    (hexe : 0 ≤ e.nblocks 0) :
    reconsiderEntry e =
      .ok ({ e with
              plan_cache_mode := 1, fixed := false,
              ref_nblocks := e.avg_nblocks, ref_exec_time := e.avg_exec_time },
           some true) := by
  have h1 : ¬ e.plan_cache_mode < 0 := by omega
  have h2 : ¬ (e.avg_nblocks ≤ 0 ∨ ring_buffer_size e ≤ 1) := by
    push_neg
    exact ⟨havg, hstat⟩
  have h3 : e.plan_cache_mode = 0 ∧ e.fixed = false ∧ e.ref_exec_time < 0
      ∧ e.avg_exec_time < e.plan_time
      ∧ dataVariance (ring_buffer_size e) e.nblocks ≤ (3/10) ^ 2 * e.avg_nblocks ^ 2 :=
    ⟨hmode, hfx, href, hexec, hcv⟩
  have h4 : ¬ (({ e with plan_cache_mode := (1 : ℤ), fixed := false }).nblocks 0 < 0
      ∧ ((-1 : ℚ) < 0 ∨ (-1 : ℚ) < 0)) := by
    rintro ⟨hh, -⟩
    exact absurd hh (not_lt.mpr hexe)
  simp only [reconsiderEntry]
  rw [if_neg h1, if_neg h2, if_pos h3]
  simp only [pg_mentor_set_plan_mode_int]
  rw [if_neg h4, if_neg (by norm_num : ¬ (0 : ℚ) < -1),
    if_neg (by norm_num : ¬ (0 : ℚ) < -1)]
  rfl

/-- The step-2 branch of `reconsider_ps_modes` (FORCE_GENERIC to
FORCE_CUSTOM, the regression transition): when the entry is live, in
FORCE_GENERIC, not fixed, has a positive reference execution time, its
average execution time is below twice the plan time and its block average
exceeds its reference, the pass sets mode 2 with `fixed := false` and
records the current averages as the new reference values. -/
lemma reconsiderEntry_step2 (e : MentorTblEntry)
    (hmode : e.plan_cache_mode = 1) (hfx : e.fixed = false)
    (href : 0 < e.ref_exec_time) (hexec : e.avg_exec_time < e.plan_time * 2)
    (hratio : 1 < e.avg_nblocks / e.ref_nblocks)
    (havg : 0 < e.avg_nblocks) (hstat : 1 < ring_buffer_size e)
    (hexe : 0 ≤ e.nblocks 0) :
    reconsiderEntry e =
      .ok ({ e with
              plan_cache_mode := 2, fixed := false,
              ref_nblocks := e.avg_nblocks, ref_exec_time := e.avg_exec_time },
           some false) := by
  have h1 : ¬ e.plan_cache_mode < 0 := by omega
  have h2 : ¬ (e.avg_nblocks ≤ 0 ∨ ring_buffer_size e ≤ 1) := by
    push_neg
    exact ⟨havg, hstat⟩
  have h3 : ¬ (e.plan_cache_mode = 0 ∧ e.fixed = false ∧ e.ref_exec_time < 0
      ∧ e.avg_exec_time < e.plan_time
      ∧ dataVariance (ring_buffer_size e) e.nblocks ≤ (3/10) ^ 2 * e.avg_nblocks ^ 2) := by
    rintro ⟨hh, -⟩
    omega
  have h3' : e.plan_cache_mode = 1 ∧ e.fixed = false ∧ 0 < e.ref_exec_time
      ∧ e.avg_exec_time < e.plan_time * 2 ∧ 1 < e.avg_nblocks / e.ref_nblocks :=
    ⟨hmode, hfx, href, hexec, hratio⟩
  have h4 : ¬ (({ e with plan_cache_mode := (2 : ℤ), fixed := false }).nblocks 0 < 0
      ∧ ((-1 : ℚ) < 0 ∨ (-1 : ℚ) < 0)) := by
    rintro ⟨hh, -⟩
    exact absurd hh (not_lt.mpr hexe)
  simp only [reconsiderEntry]
  rw [if_neg h1, if_neg h2, if_neg h3, if_pos h3']
  simp only [pg_mentor_set_plan_mode_int]
  rw [if_neg h4, if_neg (by norm_num : ¬ (0 : ℚ) < -1),
    if_neg (by norm_num : ¬ (0 : ℚ) < -1)]
  rfl

/-- Claim C2 (counterexample): `c2e` is in FORCE_GENERIC with a reference
cost and has regressed (reference execution time 5.0, average execution
time 12.0; block average twice its reference), so the pass takes the
FORCE_GENERIC to FORCE_CUSTOM regression transition - its mode becomes 2
and the to-custom tag is produced - but the resulting entry has
`fixed = false`, not `fixed = true` as the claim states:
`reconsider_ps_modes` calls
`pg_mentor_set_plan_mode_int(entry, 2, -1, -1, false)`. -/
theorem c2_counterexample :
    okTag (reconsiderEntry c2e) = some (2, false, 12, some false)
  ∧ okTag (reconsiderEntry c2e) ≠ some (2, true, 12, some false) := by
  have h := reconsiderEntry_step2 c2e rfl rfl (by norm_num [c2e, entry0])
    (by norm_num [c2e, entry0]) (by norm_num [c2e, entry0])
    (by norm_num [c2e, entry0])
    (by norm_num [c2e, entry0, ring_buffer_size, twoSlots, MENTOR_TBL_ENTRY_STAT_SIZE])
    (by norm_num [c2e, entry0, twoSlots])
  rw [h]
  refine ⟨rfl, by decide⟩

/-- Claim C2 (amended): whenever a reconsideration pass takes the regression
transition FORCE_GENERIC to FORCE_CUSTOM (the entry is live, in
FORCE_GENERIC, not fixed, has a positive reference execution time, its
average execution time is below twice the plan time and its block average
exceeds its reference), the pass sets that entry's mode to FORCE_CUSTOM
and records the current average execution time as the new reference cost,
but it leaves `fixed = false`: the entry is NOT pinned against future
automatic changes.  The `0 ≤ e.nblocks 0` hypothesis is the
reachable-state fact that a ring with recorded samples has slot 0
filled. -/
theorem c2_regression_switch_unpinned (e : MentorTblEntry)
    (hmode : e.plan_cache_mode = 1) (hfx : e.fixed = false)
    (href : 0 < e.ref_exec_time) (hexec : e.avg_exec_time < e.plan_time * 2)
    (hratio : 1 < e.avg_nblocks / e.ref_nblocks)
    (havg : 0 < e.avg_nblocks) (hstat : 1 < ring_buffer_size e)
    (hexe : 0 ≤ e.nblocks 0) :
    okTag (reconsiderEntry e) = some (2, false, e.avg_exec_time, some false) := by
  rw [reconsiderEntry_step2 e hmode hfx href hexec hratio havg hstat hexe]
  rfl

/-- Witness for C2 at the concrete regressed entry `c2e`. -/
theorem c2_regression_switch_unpinned_witness :
    (c2e.plan_cache_mode = 1 ∧ c2e.fixed = false ∧ 0 < c2e.ref_exec_time
      ∧ c2e.avg_exec_time < c2e.plan_time * 2
      ∧ 1 < c2e.avg_nblocks / c2e.ref_nblocks ∧ 0 < c2e.avg_nblocks
      ∧ 1 < ring_buffer_size c2e ∧ 0 ≤ c2e.nblocks 0)
  ∧ okTag (reconsiderEntry c2e) = some (2, false, c2e.avg_exec_time, some false) := by
  refine ⟨⟨by decide, by decide, by decide, by norm_num [c2e, entry0],
      by norm_num [c2e, entry0], by decide, by decide, by decide⟩, ?_⟩
  exact c2_regression_switch_unpinned c2e (by decide) (by decide) (by decide)
    (by norm_num [c2e, entry0]) (by norm_num [c2e, entry0]) (by decide)
    (by decide) (by decide)

/-- Claim C6 (counterexample): a manual override with NULL reference costs on
the never-executed fingerprint 42 raises the error, and the error carries
a table state in which the entry's mode and fixed flag have already been
mutated (from (0, false) to (1, true)); the epoch stays 5. -/
theorem c6_counterexample :
    (errStateOf (pg_mentor_set_plan_mode c6st 42 1 (-1) (-1) true entry0)).map
        (fun s => (s.epoch, s.entries.map (fun x => (x.plan_cache_mode, x.fixed))))
      = some (5, [(1, true)])
  ∧ c6st.entries.map (fun x => (x.plan_cache_mode, x.fixed)) = [(0, false)]
  ∧ ((1 : ℤ), true) ≠ ((0 : ℤ), false) := by
  refine ⟨by decide, by decide, by decide⟩

/-- Claim C6 (amended): a manual set_mode with missing (sentinel) reference
cost for a registered but never-executed fingerprint is rejected
synchronously with the descriptive error, the shared epoch is not bumped
and the reference fields are unchanged - but the entry's mode and fixed
flag have already been overwritten when the error is raised, and that
mutation survives in the shared table. -/
theorem c6_error_path (st : PgmState) (qid : ℕ) (status : ℤ) (ret rnb : ℚ)
    (fixed : Bool) (junk e : MentorTblEntry)
    (hfind : st.entries.find? (fun x => x.queryid = qid) = some e)
    (hnever : e.nblocks 0 < 0) (hrefs : rnb < 0 ∨ ret < 0) :
    pg_mentor_set_plan_mode st qid status ret rnb fixed junk =
      .error ⟨replaceEntry st.entries qid
                { e with plan_cache_mode := status, fixed := fixed },
              st.epoch⟩ := by
  simp only [pg_mentor_set_plan_mode, hfind]
  simp only [pg_mentor_set_plan_mode_int]
  rw [if_pos ⟨hnever, hrefs⟩]

/-- Witness for C6 on the concrete never-executed entry 42. -/
theorem c6_error_path_witness :
    (c6st.entries.find? (fun x => x.queryid = 42) = some c6e
      ∧ c6e.nblocks 0 < 0 ∧ ((-1 : ℚ) < 0 ∨ (-1 : ℚ) < 0))
  ∧ pg_mentor_set_plan_mode c6st 42 1 (-1) (-1) true entry0 =
      .error ⟨replaceEntry c6st.entries 42
                { c6e with plan_cache_mode := 1, fixed := true },
              c6st.epoch⟩ := by
  have hf : c6st.entries.find? (fun x => x.queryid = 42) = some c6e := rfl
  exact ⟨⟨hf, by decide, by decide⟩,
    c6_error_path c6st 42 1 (-1) (-1) true entry0 c6e hf (by decide) (by decide)⟩

end PgMentor

namespace PgMentor

/-- Claim C3: an AUTO entry that is not fixed, has no reference cost, whose
average execution cost is below its plan time and whose coefficient of
variation (standard deviation over average, as computed by
`calculateStandardDeviation` over the valid ring samples) is at most 0.3,
is moved AUTO to FORCE_GENERIC by one reconsideration pass; its new
reference execution time is its current average execution time, and a pass
over a table holding that entry reports the tally (to_generic, to_custom,
unchanged) = (1, 0, 0).  The hypotheses `0 < avg_nblocks`,
`1 < ring_buffer_size e` and `0 ≤ e.nblocks 0` are the liveness facts of
the scenario (enough recorded samples, positive average): entries without
them are skipped by the pass's guards. -/
theorem c3_auto_to_generic (e : MentorTblEntry) (ep : ℕ)
    (hmode : e.plan_cache_mode = 0) (hfx : e.fixed = false)
    (href : e.ref_exec_time < 0) (hexec : e.avg_exec_time < e.plan_time)
    (havg : 0 < e.avg_nblocks) (hstat : 1 < ring_buffer_size e)
    (hcv : calculateStandardDeviation (ring_buffer_size e) e.nblocks /
        ((e.avg_nblocks : ℚ) : ℝ) ≤ 3 / 10)
    (hexe : 0 ≤ e.nblocks 0) :
    okTag (reconsiderEntry e) = some (1, false, e.avg_exec_time, some true)
  ∧ (reconsider_ps_modes ⟨[e], ep⟩).map (fun r => (r.2.1, r.2.2.1, r.2.2.2))
      = .ok (1, 0, 0) := by
  have h310 : (((3 / 10 : ℚ)) : ℝ) = (3 / 10 : ℝ) := by norm_num
  have hvar : dataVariance (ring_buffer_size e) e.nblocks
      ≤ (3 / 10) ^ 2 * e.avg_nblocks ^ 2 :=
    (stddev_div_le_iff (ring_buffer_size e) e.nblocks e.avg_nblocks (3 / 10)
      havg (by norm_num)).mp (by rw [h310]; exact hcv)
  have hstep := reconsiderEntry_step1 e hmode hfx href hexec hvar havg hstat hexe
  constructor
  · rw [hstep]
    rfl
  · simp only [reconsider_ps_modes, reconsiderLoop, hstep, Except.map]
    norm_num

end PgMentor

namespace PgMentor

/-- Witness for C3: the scenario entry `c3e` (avg exec time 5, plan time 8,
zero variance, no reference cost) is switched to FORCE_GENERIC with
reference execution time 5 and tally (1, 0, 0). -/
theorem c3_auto_to_generic_witness :
    (c3e.plan_cache_mode = 0 ∧ c3e.fixed = false ∧ c3e.ref_exec_time < 0
      ∧ c3e.avg_exec_time < c3e.plan_time ∧ 0 < c3e.avg_nblocks
      ∧ 1 < ring_buffer_size c3e
      ∧ calculateStandardDeviation (ring_buffer_size c3e) c3e.nblocks /
          ((c3e.avg_nblocks : ℚ) : ℝ) ≤ 3 / 10
      ∧ 0 ≤ c3e.nblocks 0)
  ∧ (okTag (reconsiderEntry c3e) = some (1, false, c3e.avg_exec_time, some true)
     ∧ (reconsider_ps_modes ⟨[c3e], 2⟩).map (fun r => (r.2.1, r.2.2.1, r.2.2.2))
         = .ok (1, 0, 0)) := by
  have hsize : ring_buffer_size c3e = 2 := by decide
  have hvar0 : dataVariance 2 c3e.nblocks = 0 := by
    norm_num [dataVariance, dataMean, c3e, entry0, twoSlots, List.range_succ]
  have hcv : calculateStandardDeviation (ring_buffer_size c3e) c3e.nblocks /
      ((c3e.avg_nblocks : ℚ) : ℝ) ≤ 3 / 10 := by
    rw [hsize, calculateStandardDeviation, hvar0]
    norm_num [c3e, entry0, Real.sqrt_zero]
  exact ⟨⟨by decide, by decide, by decide, by decide, by decide, by decide, hcv,
      by decide⟩,
    c3_auto_to_generic c3e 2 (by decide) (by decide) (by decide) (by decide)
      (by decide) (by decide) hcv (by decide)⟩

/-- `recordList` over an appended sample is one `on_execute` step after the
prefix. -/
lemma recordList_append_one (e : MentorTblEntry) (xs : List (BufferUsage × ℚ))
    (y : BufferUsage × ℚ) :
    recordList e (xs ++ [y]) = on_execute (recordList e xs) y.1 y.2 := by
  simp [recordList, List.foldl_append]

/-- Invariant of the ring buffer while it is filling: after recording `xs`
(at most `capacity` samples) into a freshly initialised entry, the write
cursor equals the sample count, slot `j` holds the `j`-th sample (sentinel
`-1` beyond), and each running average times the sample count equals the
sample sum (the not-yet-full update `avg = (avg*n + x)/(n+1)` is exact in
`ℚ`). -/
lemma recordList_stats (e : MentorTblEntry) :
    ∀ xs : List (BufferUsage × ℚ), xs.length ≤ 10 →
      (recordList (init_entry_stats e) xs).next_idx = xs.length
    ∧ (∀ j, (recordList (init_entry_stats e) xs).nblocks j
          = ((xs.map fun p => total_nblocks p.1).getD j (-1)))
    ∧ (∀ j, (recordList (init_entry_stats e) xs).times j
          = ((xs.map fun p => p.2).getD j (-1)))
    ∧ (recordList (init_entry_stats e) xs).avg_nblocks * (xs.length : ℚ)
          = ((xs.map fun p => ((total_nblocks p.1 : ℚ))).sum)
    ∧ (recordList (init_entry_stats e) xs).avg_exec_time * (xs.length : ℚ)
          = ((xs.map fun p => p.2).sum) := by
  intro xs
  induction xs using List.reverseRecOn with
  | nil =>
      intro _
      refine ⟨rfl, ?_, ?_, by simp [recordList, init_entry_stats],
        by simp [recordList, init_entry_stats]⟩
      · intro j
        simp [recordList, init_entry_stats]
      · intro j
        simp [recordList, init_entry_stats]
  | append_singleton ys y ih =>
      intro hlen
      have hyslt : ys.length < 10 := by
        simp only [List.length_append, List.length_singleton] at hlen
        omega
      obtain ⟨h1, h2, h3, h4, h5⟩ := ih (le_of_lt hyslt)
      rw [recordList_append_one]
      generalize recordList (init_entry_stats e) ys = r at h1 h2 h3 h4 h5 ⊢
      have hmod : r.next_idx % MENTOR_TBL_ENTRY_STAT_SIZE = ys.length := by
        rw [h1]
        exact Nat.mod_eq_of_lt hyslt
      have hslot : r.nblocks (r.next_idx % MENTOR_TBL_ENTRY_STAT_SIZE) = -1 := by
        rw [hmod, h2]
        exact getD_length_le _ _ _ (by simp)
      have hne : ¬ ring_buffer_size r = MENTOR_TBL_ENTRY_STAT_SIZE := by
        unfold ring_buffer_size
        rw [hslot, if_pos (by norm_num : (-1 : ℤ) < 0), h1]
        simp only [MENTOR_TBL_ENTRY_STAT_SIZE]
        omega
      simp only [on_execute]
      rw [if_neg hne]
      have hnz : ((ys.length : ℚ) + 1) ≠ 0 := by positivity
      refine ⟨?_, ?_, ?_, ?_, ?_⟩
      · simp [h1]
      · intro j
        simp only [hmod]
        rcases lt_trichotomy j ys.length with hj | hj | hj
        · have ha : j < (List.map (fun p => total_nblocks p.1) ys).length := by
            simpa using hj
          rw [Function.update_noteq (by omega), h2, List.map_append,
            getD_append_lt _ _ _ _ ha]
        · subst hj
          rw [hmod, Function.update_same, List.map_append]
          simp only [List.map_cons, List.map_nil]
          rw [show ys.length = (List.map (fun p => total_nblocks p.1) ys).length
              from by simp,
            getD_append_self]
        · have ha : (List.map (fun p => total_nblocks p.1) ys).length ≤ j := by
            simp only [List.length_map]
            omega
          have hb : (List.map (fun p => total_nblocks p.1) (ys ++ [y])).length ≤ j := by
            simp only [List.length_map, List.length_append, List.length_singleton]
            omega
          rw [Function.update_noteq (by omega), h2, getD_length_le _ _ _ ha,
            getD_length_le _ _ _ hb]
      · intro j
        simp only [hmod]
        rcases lt_trichotomy j ys.length with hj | hj | hj
        · have ha : j < (List.map (fun p => p.2) ys).length := by
            simpa using hj
          rw [Function.update_noteq (by omega), h3, List.map_append,
            getD_append_lt _ _ _ _ ha]
        · subst hj
          rw [hmod, Function.update_same, List.map_append]
          simp only [List.map_cons, List.map_nil]
          rw [show ys.length = (List.map (fun p : BufferUsage × ℚ => p.2) ys).length
              from by simp,
            getD_append_self]
        · have ha : (List.map (fun p => p.2) ys).length ≤ j := by
            simp only [List.length_map]
            omega
          have hb : (List.map (fun p : BufferUsage × ℚ => p.2) (ys ++ [y])).length ≤ j := by
            simp only [List.length_map, List.length_append, List.length_singleton]
            omega
          rw [Function.update_noteq (by omega), h3, getD_length_le _ _ _ ha,
            getD_length_le _ _ _ hb]
      · dsimp only
        rw [h1]
        simp only [List.length_append, List.length_singleton, Nat.cast_add,
          Nat.cast_one]
        rw [div_mul_cancel₀ _ hnz, List.map_append, List.sum_append]
        simp only [List.map_cons, List.map_nil, List.sum_cons, List.sum_nil]
        rw [h4]
        ring
      · dsimp only
        rw [h1]
        simp only [List.length_append, List.length_singleton, Nat.cast_add,
          Nat.cast_one]
        rw [div_mul_cancel₀ _ hnz, List.map_append, List.sum_append]
        simp only [List.map_cons, List.map_nil, List.sum_cons, List.sum_nil]
        rw [h5]
        ring

end PgMentor

namespace PgMentor

/-- Behaviour of the ring buffer at and just past capacity, recording from a
fresh entry: after exactly `capacity` samples the buffer reports
`capacity` valid samples and both running averages equal the exact
arithmetic means; after one further sample, `avg_exec_time` equals the
mean of the last `capacity` samples (the evicted sample has dropped out),
while `avg_nblocks` has been incremented by the TRUNCATED integer quotient
`(new - evicted).tdiv capacity` (the C expression divides two `int64`
values by an `int`), so the evicted sample need not drop out of it. -/
lemma recordList_full_spec (e : MentorTblEntry) (x y : BufferUsage × ℚ)
    (rest : List (BufferUsage × ℚ)) (hlen : (x :: rest).length = 10) :
    ring_buffer_size (recordList (init_entry_stats e) (x :: rest))
        = MENTOR_TBL_ENTRY_STAT_SIZE
  ∧ (recordList (init_entry_stats e) (x :: rest)).avg_nblocks
      = (((x :: rest).map fun p => ((total_nblocks p.1 : ℚ))).sum) / 10
  ∧ (recordList (init_entry_stats e) (x :: rest)).avg_exec_time
      = (((x :: rest).map fun p => p.2).sum) / 10
  ∧ (recordList (init_entry_stats e) ((x :: rest) ++ [y])).avg_exec_time
      = (((rest ++ [y]).map fun p => p.2).sum) / 10
  ∧ (recordList (init_entry_stats e) ((x :: rest) ++ [y])).avg_nblocks
      = (((x :: rest).map fun p => ((total_nblocks p.1 : ℚ))).sum) / 10
        + (((total_nblocks y.1 - total_nblocks x.1).tdiv 10 : ℤ) : ℚ) := by
  obtain ⟨h1, h2, h3, h4, h5⟩ := recordList_stats e (x :: rest) (le_of_eq hlen)
  rw [recordList_append_one]
  generalize recordList (init_entry_stats e) (x :: rest) = r at h1 h2 h3 h4 h5 ⊢
  have hmod : r.next_idx % MENTOR_TBL_ENTRY_STAT_SIZE = 0 := by
    rw [h1, hlen]
    norm_num [MENTOR_TBL_ENTRY_STAT_SIZE]
  have hslot0 : r.nblocks (r.next_idx % MENTOR_TBL_ENTRY_STAT_SIZE)
      = total_nblocks x.1 := by
    rw [hmod, h2]
    simp
  have htime0 : r.times (r.next_idx % MENTOR_TBL_ENTRY_STAT_SIZE) = x.2 := by
    rw [hmod, h3]
    simp
  have hsize : ring_buffer_size r = MENTOR_TBL_ENTRY_STAT_SIZE := by
    unfold ring_buffer_size
    rw [hslot0, if_neg (not_lt.mpr (total_nblocks_nonneg x.1))]
  have h10 : (((x :: rest).length : ℕ) : ℚ) = 10 := by
    rw [hlen]
    norm_num
  have havgnb : r.avg_nblocks
      = (((x :: rest).map fun p => ((total_nblocks p.1 : ℚ))).sum) / 10 := by
    rw [eq_div_iff (by norm_num : (10 : ℚ) ≠ 0)]
    rw [h10] at h4
    exact h4
  have havget : r.avg_exec_time = (((x :: rest).map fun p => p.2).sum) / 10 := by
    rw [eq_div_iff (by norm_num : (10 : ℚ) ≠ 0)]
    rw [h10] at h5
    exact h5
  refine ⟨hsize, havgnb, havget, ?_, ?_⟩
  · simp only [on_execute]
    rw [if_pos hsize]
    dsimp only
    rw [htime0, havget]
    simp only [List.map_cons, List.sum_cons, List.map_append, List.sum_append,
      List.map_nil, List.sum_nil, MENTOR_TBL_ENTRY_STAT_SIZE, Nat.cast_ofNat]
    ring
  · simp only [on_execute]
    rw [if_pos hsize]
    dsimp only
    rw [hslot0, havgnb, neg_add_eq_sub]
    simp only [MENTOR_TBL_ENTRY_STAT_SIZE, Nat.cast_ofNat]

/-- Claim C1 (amended): recording exactly `capacity` (= 10) samples into a
fresh entry leaves `valid_count = capacity` and both stored averages equal
to the exact arithmetic means of the samples; after `capacity + 1`
samples, `avg_exec_time` equals the arithmetic mean of the last `capacity`
samples (the evicted sample no longer contributes, the update
`avg += (x - evicted)/capacity` being exact `double` arithmetic), but
`avg_nblocks` is incremented by the integer-truncated quotient
`(x - evicted).tdiv capacity` - the C code divides `int64` by `int` - so
the evicted block count can remain visible in `avg_nblocks`. -/
theorem c1_ring_buffer_averages (e : MentorTblEntry) (x y : BufferUsage × ℚ)
    (rest : List (BufferUsage × ℚ)) (hlen : (x :: rest).length = 10) :
    ring_buffer_size (recordList (init_entry_stats e) (x :: rest))
        = MENTOR_TBL_ENTRY_STAT_SIZE
  ∧ (recordList (init_entry_stats e) (x :: rest)).avg_nblocks
      = (((x :: rest).map fun p => ((total_nblocks p.1 : ℚ))).sum) / 10
  ∧ (recordList (init_entry_stats e) (x :: rest)).avg_exec_time
      = (((x :: rest).map fun p => p.2).sum) / 10
  ∧ (recordList (init_entry_stats e) ((x :: rest) ++ [y])).avg_exec_time
      = (((rest ++ [y]).map fun p => p.2).sum) / 10
  ∧ (recordList (init_entry_stats e) ((x :: rest) ++ [y])).avg_nblocks
      = (((x :: rest).map fun p => ((total_nblocks p.1 : ℚ))).sum) / 10
        + (((total_nblocks y.1 - total_nblocks x.1).tdiv 10 : ℤ) : ℚ) :=
  recordList_full_spec e x y rest hlen

/-- Witness for C1: ten samples (one block / 2 ms, then nine idle 1 ms
executions) followed by an eleventh (one block / 3 ms). -/
theorem c1_ring_buffer_averages_witness :
    (((buOne, (2 : ℚ)) :: List.replicate 9 (buZero, (1 : ℚ))).length = 10)
  ∧ (ring_buffer_size (recordList (init_entry_stats entry0)
        ((buOne, (2 : ℚ)) :: List.replicate 9 (buZero, (1 : ℚ))))
        = MENTOR_TBL_ENTRY_STAT_SIZE
     ∧ (recordList (init_entry_stats entry0)
          ((buOne, (2 : ℚ)) :: List.replicate 9 (buZero, (1 : ℚ)))).avg_nblocks
        = ((((buOne, (2 : ℚ)) :: List.replicate 9 (buZero, (1 : ℚ))).map
            fun p => ((total_nblocks p.1 : ℚ))).sum) / 10
     ∧ (recordList (init_entry_stats entry0)
          ((buOne, (2 : ℚ)) :: List.replicate 9 (buZero, (1 : ℚ)))).avg_exec_time
        = ((((buOne, (2 : ℚ)) :: List.replicate 9 (buZero, (1 : ℚ))).map
            fun p => p.2).sum) / 10
     ∧ (recordList (init_entry_stats entry0)
          (((buOne, (2 : ℚ)) :: List.replicate 9 (buZero, (1 : ℚ)))
            ++ [(buOne, (3 : ℚ))])).avg_exec_time
        = (((List.replicate 9 (buZero, (1 : ℚ)) ++ [(buOne, (3 : ℚ))]).map
            fun p => p.2).sum) / 10
     ∧ (recordList (init_entry_stats entry0)
          (((buOne, (2 : ℚ)) :: List.replicate 9 (buZero, (1 : ℚ)))
            ++ [(buOne, (3 : ℚ))])).avg_nblocks
        = ((((buOne, (2 : ℚ)) :: List.replicate 9 (buZero, (1 : ℚ))).map
            fun p => ((total_nblocks p.1 : ℚ))).sum) / 10
          + (((total_nblocks (buOne, (3 : ℚ)).1
              - total_nblocks (buOne, (2 : ℚ)).1).tdiv 10 : ℤ) : ℚ)) :=
  ⟨by decide,
    c1_ring_buffer_averages entry0 (buOne, 2) (buOne, 3)
      (List.replicate 9 (buZero, 1)) (by decide)⟩

/-- Claim C1 (counterexample): one sample of one block followed by ten idle
samples.  After the eleventh recording the claim says `avg_nblocks` equals
the mean of the last ten samples (namely 0), but the integer-truncated
full-buffer update leaves `avg_nblocks = 1/10`: the evicted oldest sample
is still reflected in the average. -/
theorem c1_counterexample :
    (recordList (init_entry_stats entry0) c1cex).avg_nblocks
      ≠ ((c1cex.drop 1).map fun p => ((total_nblocks p.1 : ℚ))).sum / 10 := by
  have hsplit : c1cex
      = ((buOne, (0 : ℚ)) :: List.replicate 9 (buZero, 0)) ++ [(buZero, 0)] := by
    show (buOne, (0 : ℚ)) :: List.replicate 10 (buZero, 0)
      = (buOne, (0 : ℚ)) :: (List.replicate 9 (buZero, 0) ++ [(buZero, 0)])
    rw [← List.replicate_succ']
  obtain ⟨-, -, -, -, h5⟩ := recordList_full_spec entry0 (buOne, 0) (buZero, 0)
    (List.replicate 9 (buZero, 0)) (by decide)
  rw [hsplit, h5]
  have ht : ((total_nblocks (buZero, (0 : ℚ)).1
      - total_nblocks (buOne, (0 : ℚ)).1).tdiv 10) = 0 := by decide
  rw [ht]
  simp only [List.map_cons, List.sum_cons, List.map_replicate, List.sum_replicate,
    List.drop_succ_cons, List.drop_zero, List.map_append, List.sum_append,
    List.map_nil, List.sum_nil, c1cex]
  norm_num [total_nblocks, buOne, buZero]

end PgMentor
